import Mathlib

/-!
# Verification of the CmdOption usage-text option parser

This file is a shallow embedding, in Lean 4, of the C++ header
`CmdOption.h`: a command-line option parser that derives its option table
from manual-page style usage text and then dispatches `argv` against that
table.  Strings are embedded as `List Char` (exactly the character
sequences `std::string` holds), the `std::map` members as association
lists with first-match lookup and insert-only-when-absent updates (the
only operations the source performs on them), and the C `int` arity
constants `no_argument` / `required_argument` / `optional_argument` as an
enumeration.

The underlying token scanner `getopt_long` is *not* part of the
repository's sources (only `<getopt.h>` is included); it is modelled from
the specification's description of the external collaborator, see
`getoptStep` below.
-/

set_option linter.unusedVariables false

/-- The C `char` value `0`, used by the source as the "no short option"
sentinel (`char shortOpt = 0;`). -/
def nullChar : Char := '\x00'

/-- The three `getopt.h` argument-requirement constants
(`no_argument = 0`, `required_argument = 1`, `optional_argument = 2`),
i.e. the argument arity of an option. -/
inductive Arity
| no_argument
| required_argument
| optional_argument
deriving DecidableEq

/-- Embedding of class `StringValue`: the raw-value collection.  It keeps
the stored strings joined by `'\n'` in `m_text` together with the number
of stored strings `m_count`. -/
structure StringValue where
  m_text : List Char
  m_count : Nat
deriving DecidableEq

/-- A default-constructed `StringValue` (no text, count `0`). -/
def StringValue.empty : StringValue := ⟨[], 0⟩

/-- `StringValue::add`: append one more raw string, separating stored
strings with `'\n'`. -/
def StringValue.add (sv : StringValue) (str : List Char) : StringValue :=
  if sv.m_count = 0 then ⟨str, 1⟩ else ⟨sv.m_text ++ '\n' :: str, sv.m_count + 1⟩

/-- `StringValue::operator bool`: `m_count > 0`. -/
def StringValue.toBool (sv : StringValue) : Bool :=
  decide (0 < sv.m_count)

/-- `StringValue::as<std::string>`: `validate()` throws
`std::invalid_argument("null value")` when `m_count == 0` (this guard is
shared by every instantiation of `as<T>`); otherwise `getValue` for
`std::string` returns the stored text.  Exceptions are embedded as
`Except.error` carrying the exception message. -/
def StringValue.asString (sv : StringValue) : Except (List Char) (List Char) :=
  if sv.m_count = 0 then Except.error ("null value".toList) else Except.ok sv.m_text

/-- One entry of the `struct option` array handed to `getopt_long`:
`name` (null until `CmdOption::init` fills it in, hence an `Option`),
`has_arg`, and `val` (the cross-referenced short option character; the
`flag` field is always the null pointer in this program and is omitted). -/
structure LongOpt where
  name : Option (List Char)
  has_arg : Arity
  val : Char
deriving DecidableEq

/-- Embedding of the data members of class `CmdOption`. -/
structure CmdOption where
  m_usage : List Char
  m_errorStr : List Char
  m_shortOptStr : List Char
  m_longOptions : List LongOpt
  m_longOptNames : List (List Char)
  m_maxIndex : Nat
  m_indexMap : List (List Char × Nat)
  m_options : List (Nat × StringValue)
  m_arguments : StringValue
  m_nullStrValue : StringValue
deriving DecidableEq

/-- A freshly constructed `CmdOption` object: the in-class member
initializers (`m_shortOptStr = ":"`, `m_maxIndex = 0`, everything else
default-constructed). -/
def emptyCmdOption : CmdOption :=
  ⟨[], [], [':'], [], [], 0, [], [], StringValue.empty, StringValue.empty⟩

/-- `m_indexMap.find(k)`: first-match lookup in the alias index
(`std::map<std::string, int>`; the source only ever inserts a key that is
absent, so an association list with first-match lookup is an exact model). -/
def lookupMap : List (List Char × Nat) → List Char → Option Nat
| [], _ => none
| (k, v) :: rest, key => if k = key then some v else lookupMap rest key

/-- `m_options.find(i)`: lookup in the per-identity value collection map
(`std::map<int, StringValue>`). -/
def lookupOpt : List (Nat × StringValue) → Nat → Option StringValue
| [], _ => none
| (k, v) :: rest, key => if k = key then some v else lookupOpt rest key

/-- `m_options[index].add(s)`: `std::map::operator[]` default-constructs
the `StringValue` when the key is absent, then `add` appends. -/
def optionsAdd : List (Nat × StringValue) → Nat → List Char → List (Nat × StringValue)
| [], i, s => [(i, StringValue.empty.add s)]
| (k, v) :: rest, i, s =>
    if k = i then (k, v.add s) :: rest else (k, v) :: optionsAdd rest i s

/-- `CmdOption::good`: no error has been recorded. -/
def CmdOption.good (st : CmdOption) : Bool :=
  decide (st.m_errorStr = [])

/-- `CmdOption::addErrorStr`: diagnostics accumulate into the single
`m_errorStr` string, separated by `'\n'`. -/
def CmdOption.addErrorStr (st : CmdOption) (str : List Char) : CmdOption :=
  { st with m_errorStr := if st.m_errorStr = [] then str else st.m_errorStr ++ '\n' :: str }

/-- The line splitting performed by `std::getline` over a
`std::stringstream` of the usage text: split on `'\n'`, where a trailing
newline does not produce a final empty line and the empty text produces
no lines at all. -/
def getlines : List Char → List (List Char)
| [] => []
| c :: cs =>
    if c = '\n' then [] :: getlines cs
    else
      match getlines cs with
      | [] => [[c]]
      | l :: ls => (c :: l) :: ls

/-- The whitespace set of `std::isspace` in the default locale, which is
what `operator>>(std::stringstream, std::string)` skips. -/
def isWSpace (c : Char) : Bool :=
  c = ' ' || c = '\t' || c = '\n' || c = '\x0b' || c = '\x0c' || c = '\r'

/-- Helper for `wordsOf`: accumulate the current word (reversed). -/
def wordsAux : List Char → List Char → List (List Char)
| [], acc => if acc = [] then [] else [acc.reverse]
| c :: cs, acc =>
    if isWSpace c then
      if acc = [] then wordsAux cs [] else acc.reverse :: wordsAux cs []
    else wordsAux cs (c :: acc)

/-- The word sequence that repeated `ss >> word` extraction yields for a
line: maximal runs of non-whitespace characters. -/
def wordsOf (cs : List Char) : List (List Char) :=
  wordsAux cs []

/-- The long-option branch of `CmdOption::parseOptLine` (the token
classifier for a word starting with `--`): locate the first `'='`
(`find_first_of`), and produce the option name and arity, or fail
(`return false`) on a `[=` pattern whose word does not end in `]`.
`none` is the failure. -/
def classifyLongWord (w : List Char) : Option (List Char × Arity) :=
  match w.findIdx? (fun c => c == '=') with
  | none => some (w.drop 2, Arity.no_argument)
  | some pos =>
      if w[pos - 1]? = some '[' then
        if w.getLast? ≠ some ']' then none
        else some ((w.drop 2).take (pos - 1 - 2), Arity.optional_argument)
      else some ((w.drop 2).take (pos - 2), Arity.required_argument)

/-- Outcome of the word-scanning `while (ss >> word)` loop of
`parseOptLine`: an early `return true` for a prose line (first word not
starting with `'-'`), an early `return false` (invalid line), or normal
loop exit with the accumulated `shortOpt` / `longOpt` / `argReqmt`
locals and the word counter `n`. -/
inductive ScanOut
| earlyIgnore
| invalid
| state (shortOpt : Char) (longOpt : List Char) (argReqmt : Arity) (n : Nat)
deriving DecidableEq

/-- The word-scanning loop of `CmdOption::parseOptLine`, translated
clause by clause: count the word; stop inspecting after the second word;
words of length `≤ 1` invalidate the line; a first word not starting
with `'-'` makes the whole line prose; a word starting with `--` goes
through `classifyLongWord`; a word starting with a single `-` sets the
short option unless one was already set, the word is longer than 3
characters, or it has length 3 with no trailing comma. -/
def scanLoop : List (List Char) → Char → List Char → Arity → Nat → ScanOut
| [], so, lo, ar, n => ScanOut.state so lo ar n
| w :: ws, so, lo, ar, n =>
    let n1 := n + 1
    if 2 < n1 then ScanOut.state so lo ar n1
    else if w.length ≤ 1 then ScanOut.invalid
    else if w.head? ≠ some '-' then
      (if n1 = 1 then ScanOut.earlyIgnore else scanLoop ws so lo ar n1)
    else if w[1]? = some '-' then
      match classifyLongWord w with
      | none => ScanOut.invalid
      | some (lo1, ar1) => scanLoop ws so lo1 ar1 n1
    else
      if so ≠ nullChar ∨ (w.length = 3 ∧ w[2]? ≠ some ',') ∨ 3 < w.length then
        ScanOut.invalid
      else scanLoop ws (w[1]?.getD nullChar) lo ar n1

/-- The classification a usage line receives from `parseOptLine` before
any table mutation: ignored (prose or empty line), invalid (`return
false`), or an option definition with short option, long option (empty
list = none) and arity.  The post-loop code of `parseOptLine` is
translated here: an empty line is ignored; neither option identified is
invalid; with no long option the arity is inferred from the word count
(`argReqmt = (n == 2) ? required_argument : no_argument`). -/
inductive LineClass
| ignore
| invalid
| opt (shortOpt : Char) (longOpt : List Char) (argReqmt : Arity)
deriving DecidableEq

/-- See `LineClass`. -/
def parseOptLineClass (line : List Char) : LineClass :=
  match scanLoop (wordsOf line) nullChar [] Arity.no_argument 0 with
  | ScanOut.earlyIgnore => LineClass.ignore
  | ScanOut.invalid => LineClass.invalid
  | ScanOut.state so lo ar n =>
      if n = 0 then LineClass.ignore
      else if so = nullChar ∧ lo = [] then LineClass.invalid
      else if lo = [] then
        LineClass.opt so lo (if n = 2 then Arity.required_argument else Arity.no_argument)
      else LineClass.opt so lo ar

/-- The short-option registration section of `parseOptLine` (executed
when `shortOpt != 0`): extend the short option specification string
(appending `':'` when the option takes an argument), then either report
a duplicate or register the alias at the current `m_maxIndex`.  Returns
the updated state and the local `indexUsed` contribution. -/
def registerShort (st : CmdOption) (shortOpt : Char) (argReqmt : Arity) : CmdOption × Bool :=
  if shortOpt ≠ nullChar then
    let st1 := { st with
      m_shortOptStr := st.m_shortOptStr ++ shortOpt ::
        (if argReqmt = Arity.required_argument ∨ argReqmt = Arity.optional_argument
         then [':'] else []) }
    match lookupMap st1.m_indexMap [shortOpt] with
    | some _ => (st1.addErrorStr ("duplicate short option: ".toList ++ [shortOpt]), false)
    | none =>
        ({ st1 with m_indexMap := st1.m_indexMap ++ [([shortOpt], st1.m_maxIndex)] }, true)
  else (st, false)

/-- The long-option registration section of `parseOptLine` (executed when
`longOpt` is nonempty): push the name and the `struct option` entry
(name pointer not yet set, `flag` null, `val` = the short option char),
then either report a duplicate or register the alias at the current
`m_maxIndex`. -/
def registerLong (st : CmdOption) (shortOpt : Char) (longOpt : List Char) (argReqmt : Arity) :
    CmdOption × Bool :=
  if longOpt ≠ [] then
    let st1 := { st with
      m_longOptNames := st.m_longOptNames ++ [longOpt],
      m_longOptions := st.m_longOptions ++ [LongOpt.mk none argReqmt shortOpt] }
    match lookupMap st1.m_indexMap longOpt with
    | some _ => (st1.addErrorStr ("duplicate long option: ".toList ++ longOpt), false)
    | none =>
        ({ st1 with m_indexMap := st1.m_indexMap ++ [(longOpt, st1.m_maxIndex)] }, true)
  else (st, false)

/-- The registration tail of `parseOptLine`: short section, long
section, and `m_maxIndex` is consumed only when some alias was newly
registered (`if (indexUsed) ++m_maxIndex`). -/
def registerOpt (st : CmdOption) (shortOpt : Char) (longOpt : List Char) (argReqmt : Arity) :
    CmdOption :=
  let p1 := registerShort st shortOpt argReqmt
  let p2 := registerLong p1.1 shortOpt longOpt argReqmt
  if p1.2 || p2.2 then { p2.1 with m_maxIndex := p2.1.m_maxIndex + 1 } else p2.1

/-- `CmdOption::parseOptLine`: classify the line and, for an option
definition, run the registration sections.  The boolean is the C++
return value. -/
def parseOptLine (st : CmdOption) (line : List Char) : Bool × CmdOption :=
  match parseOptLineClass line with
  | LineClass.ignore => (true, st)
  | LineClass.invalid => (false, st)
  | LineClass.opt so lo ar => (true, registerOpt st so lo ar)

/-- `CmdOption::parseLine`: a failing `parseOptLine` records the
`"invalid option at line: N\n<line>"` diagnostic. -/
def parseLine (st : CmdOption) (i : Nat) (line : List Char) : CmdOption :=
  match parseOptLine st line with
  | (true, st1) => st1
  | (false, st1) =>
      st1.addErrorStr ("invalid option at line: ".toList ++ Nat.toDigits 10 i ++ '\n' :: line)

/-- The line loop of `CmdOption::init`:
`while (good() && std::getline(s, line)) parseLine(i++, line);` —
note that `good()` is re-checked before every line. -/
def initLoop : CmdOption → Nat → List (List Char) → CmdOption
| st, _, [] => st
| st, i, l :: ls => if st.good then initLoop (parseLine st i l) (i + 1) ls else st

/-- The name fix-up at the end of `CmdOption::init`: after pushing the
all-zero sentinel entry, `m_longOptions[i].name = m_longOptNames[i]` for
every `i` below the number of collected names. -/
def assignNames : List LongOpt → List (List Char) → List LongOpt
| os, [] => os
| [], _ => []
| o :: os, nm :: nms => { o with name := some nm } :: assignNames os nms

/-- `CmdOption::init`: run the line loop over the usage text, push the
sentinel `struct option` entry, and fill in the long option name
pointers. -/
def CmdOption.init (st : CmdOption) : CmdOption :=
  let st1 := initLoop st 0 (getlines st.m_usage)
  { st1 with
    m_longOptions :=
      assignNames (st1.m_longOptions ++ [LongOpt.mk none Arity.no_argument nullChar])
        st1.m_longOptNames }

/-- `CmdOption::operator<<` applied to a fresh object: store the usage
text and build the table. -/
def buildTable (usage : List Char) : CmdOption :=
  CmdOption.init { emptyCmdOption with m_usage := usage }

/-- Per-call outcome of the underlying token scanner, following the
external-interface description: end-of-input, matched-long (index into
the long option array) or matched-short, unknown option (`'?'` with the
offending character in `optopt`), or missing argument (`':'` with the
option character in `optopt`); a matched option carries the optional
attached argument text (`optarg`). -/
inductive GetoptResult
| done
| longOption (optionIndex : Nat) (optarg : Option (List Char))
| shortOption (c : Char) (optarg : Option (List Char))
| unknown (optopt : Char)
| missingArg (optopt : Char)
deriving DecidableEq

/-- Search the short-option specification string for a character and
report whether a `':'` follows it (the option takes an argument). -/
def shortFind : List Char → Char → Option Bool
| [], _ => none
| [x], c => if x = c then some false else none
| x :: y :: rest, c => if x = c then some (decide (y = ':')) else shortFind (y :: rest) c

/-- Short-option lookup of the scanner: `':'` itself is never a valid
option character. -/
def shortLookup (optstr : List Char) (c : Char) : Option Bool :=
  if c = ':' then none else shortFind optstr c

/-- Search the long-option array for an exact name match, stopping at
the all-zero sentinel entry (null name); returns the array index and the
entry. -/
def longFind : List LongOpt → Nat → List Char → Option (Nat × LongOpt)
| [], _, _ => none
| o :: os, i, nm =>
    match o.name with
    | none => none
    | some s => if s = nm then some (i, o) else longFind os (i + 1) nm

/-- Split the text after `--` of a long-option token at the first `'='`:
the name part and, when present, the attached argument text. -/
def splitEq (body : List Char) : List Char × Option (List Char) :=
  match body.findIdx? (fun c => c == '=') with
  | none => (body, none)
  | some p => (body.take p, some (body.drop (p + 1)))

/-- Modelled from the spec: one call to the underlying getopt-style
token scanner (`getopt_long`), whose implementation is not part of this
repository (only `<getopt.h>` is included).  Following §6 and §4.4 of
the specification it is driven by the short-option specification string
(which this program always begins with the `':'` sentinel, so a missing
required argument is reported as the distinct `':'` condition), the long
option descriptor array, and the shared scan cursor `optind`; each call
yields one of end-of-input / matched-long / matched-short / unknown /
missing-argument plus an optional attached argument.  Scanning starts at
`argv[1]`; the cursor value `0` requests re-initialization and behaves
like `1`.  The scan ends at the first token that is not an option
occurrence (empty, a bare `-`, or not starting with `-`), everything
from there on being positional, matching §3's "collected from the first
non-option token onwards"; the GNU-specific extensions the spec does not
describe (argument permutation, abbreviated long names, clustered short
options) are not modelled.  Returns the signal and the new cursor. -/
def getoptStep (argv : List (List Char)) (optstr : List Char) (lopts : List LongOpt)
    (optind : Nat) : GetoptResult × Nat :=
  let ind := if optind = 0 then 1 else optind
  match argv[ind]? with
  | none => (GetoptResult.done, ind)
  | some tok =>
      match tok with
      | [] => (GetoptResult.done, ind)
      | [_] => (GetoptResult.done, ind)
      | c0 :: c1 :: rest =>
          if c0 ≠ '-' then (GetoptResult.done, ind)
          else if c1 = '-' then
            if rest = [] then (GetoptResult.done, ind + 1)
            else
              let pr := splitEq rest
              match longFind lopts 0 pr.1 with
              | none => (GetoptResult.unknown nullChar, ind + 1)
              | some (i, o) =>
                  match o.has_arg, pr.2 with
                  | Arity.no_argument, none => (GetoptResult.longOption i none, ind + 1)
                  | Arity.no_argument, some _ => (GetoptResult.unknown o.val, ind + 1)
                  | Arity.required_argument, some a =>
                      (GetoptResult.longOption i (some a), ind + 1)
                  | Arity.required_argument, none =>
                      match argv[ind + 1]? with
                      | some nxt => (GetoptResult.longOption i (some nxt), ind + 2)
                      | none => (GetoptResult.missingArg o.val, ind + 1)
                  | Arity.optional_argument, a => (GetoptResult.longOption i a, ind + 1)
          else
            match shortLookup optstr c1 with
            | none => (GetoptResult.unknown c1, ind + 1)
            | some true =>
                if rest ≠ [] then (GetoptResult.shortOption c1 (some rest), ind + 1)
                else
                  match argv[ind + 1]? with
                  | some nxt => (GetoptResult.shortOption c1 (some nxt), ind + 2)
                  | none => (GetoptResult.missingArg c1, ind + 1)
            | some false => (GetoptResult.shortOption c1 none, ind + 1)

/-- `m_indexMap[key]` inside `CmdOption::parse`: `std::map::operator[]`
returns the mapped value, default-inserting `0` when the key is absent
(the absent case is unreachable for names `getopt_long` matched, but the
side effect is modelled faithfully). -/
def mapIndexAt (st : CmdOption) (k : List Char) : CmdOption × Nat :=
  match lookupMap st.m_indexMap k with
  | some i => (st, i)
  | none => ({ st with m_indexMap := st.m_indexMap ++ [(k, 0)] }, 0)

/-- The `while (true)` scan loop of `CmdOption::parse`, translated case
by case from the source: end the loop on `c < 0`; resolve a long option
through `m_indexMap[m_longOptNames[option_index]]`; `'?'` appends
`"Unknown option: <optopt>"` and continues; `':'` appends
`"Missing argument for: <optopt>"` and continues; a short option absent
from the alias index appends a diagnostic and ends the loop (`break`);
a resolved occurrence appends `optarg` (or `""` when null) to the
identity's collection.  The structural `fuel` argument only bounds the
iteration count so the recursion is structural; the scanner strictly
advances the cursor on every non-final signal, so `argv.length + 2`
iterations (the value `CmdOption.parse` supplies) always reach the
terminating signal first. -/
def parseLoop (argv : List (List Char)) : Nat → CmdOption → Nat → CmdOption × Nat
| 0, st, optind => (st, optind)
| fuel + 1, st, optind =>
    match getoptStep argv st.m_shortOptStr st.m_longOptions optind with
    | (GetoptResult.done, ind1) => (st, ind1)
    | (GetoptResult.longOption oi oarg, ind1) =>
        let nm := (st.m_longOptNames[oi]?).getD []
        let p := mapIndexAt st nm
        parseLoop argv fuel
          { p.1 with m_options := optionsAdd p.1.m_options p.2 (oarg.getD []) } ind1
    | (GetoptResult.shortOption c oarg, ind1) =>
        match lookupMap st.m_indexMap [c] with
        | none => (st.addErrorStr ("unknown short option: ".toList ++ [c]), ind1)
        | some index =>
            parseLoop argv fuel
              { st with m_options := optionsAdd st.m_options index (oarg.getD []) } ind1
    | (GetoptResult.unknown c, ind1) =>
        parseLoop argv fuel (st.addErrorStr ("Unknown option: ".toList ++ [c])) ind1
    | (GetoptResult.missingArg c, ind1) =>
        parseLoop argv fuel (st.addErrorStr ("Missing argument for: ".toList ++ [c])) ind1

/-- `CmdOption::parse`: run the scan loop, then append every remaining
token from the cursor position onward to `m_arguments`
(`while (optind < argc) m_arguments.add(argv[optind++]);`), and finally
reset the shared cursor (`optind = 0;`).  The shared global cursor is
made explicit: `parse` takes the cursor value left by previous scanner
use and returns the cursor value it leaves behind. -/
def CmdOption.parse (st : CmdOption) (argv : List (List Char)) (optind : Nat) :
    CmdOption × Nat :=
  let p := parseLoop argv (argv.length + 2) st optind
  ({ p.1 with m_arguments := (argv.drop p.2).foldl StringValue.add p.1.m_arguments }, 0)

/-- `CmdOption::operator[]`: an alias absent from the index throws
`std::invalid_argument("unknown option: " + opt)` (embedded as
`Except.error` with the message); a registered alias with no recorded
occurrence returns `m_nullStrValue`; otherwise the recorded collection. -/
def CmdOption.access (st : CmdOption) (opt : List Char) : Except (List Char) StringValue :=
  match lookupMap st.m_indexMap opt with
  | none => Except.error ("unknown option: ".toList ++ opt)
  | some index =>
      match lookupOpt st.m_options index with
      | none => Except.ok st.m_nullStrValue
      | some v => Except.ok v

/-- A token at which the scanner signals end-of-input when it is the
current scan position: empty, a single character, or not starting with
`'-'`. -/
def isNonOptTok : List Char → Bool
| [] => true
| [_] => true
| c :: _ :: _ => c != '-'

lemma scanLoop_state_count (ws : List (List Char)) :
    ∀ (so : Char) (lo : List Char) (ar : Arity) (n : Nat), n ≤ 2 →
    ∀ (so2 : Char) (lo2 : List Char) (ar2 : Arity) (n2 : Nat),
    scanLoop ws so lo ar n = ScanOut.state so2 lo2 ar2 n2 →
    n2 = min (n + ws.length) 3 := by
  induction ws with
  | nil =>
    intro so lo ar n hn so2 lo2 ar2 n2 h
    simp only [scanLoop, ScanOut.state.injEq] at h
    obtain ⟨-, -, -, h4⟩ := h
    simp only [List.length_nil]
    omega
  | cons w ws ih =>
    intro so lo ar n hn so2 lo2 ar2 n2 h
    simp only [scanLoop] at h
    split at h
    · simp only [ScanOut.state.injEq] at h
      obtain ⟨-, -, -, h4⟩ := h
      simp only [List.length_cons]
      omega
    · split at h
      · cases h
      · split at h
        · split at h
          · cases h
          · have := ih _ _ _ (n + 1) (by omega) _ _ _ _ h
            simp only [List.length_cons]
            omega
        · split at h
          · split at h
            · cases h
            · have := ih _ _ _ (n + 1) (by omega) _ _ _ _ h
              simp only [List.length_cons]
              omega
          · split at h
            · cases h
            · have := ih _ _ _ (n + 1) (by omega) _ _ _ _ h
              simp only [List.length_cons]
              omega

/-- Claim C4: for every usage line that yields a short option and no
long option, the inferred arity is Required exactly when the line
contains exactly two whitespace-separated words, and None for every
other word count. -/
theorem claim_C4 (line : List Char) (so : Char) (ar : Arity)
    (h : parseOptLineClass line = LineClass.opt so [] ar) :
    ar = (if (wordsOf line).length = 2 then Arity.required_argument else Arity.no_argument) := by
  unfold parseOptLineClass at h
  split at h
  · cases h
  · cases h
  · rename_i so1 lo1 ar1 n1 heq
    have hn := scanLoop_state_count (wordsOf line) nullChar [] Arity.no_argument 0
      (by omega) so1 lo1 ar1 n1 heq
    split at h
    · cases h
    · split at h
      · cases h
      · split at h
        · simp only [LineClass.opt.injEq] at h
          obtain ⟨-, -, h3⟩ := h
          rw [← h3]
          by_cases hlen : (wordsOf line).length = 2
          · rw [if_pos hlen, if_pos (by omega)]
          · rw [if_neg hlen, if_neg (by omega)]
        · simp only [LineClass.opt.injEq] at h
          obtain ⟨-, h2, -⟩ := h
          rename_i hlo
          exact absurd h2 hlo

lemma findIdxEq_eq_none (w : List Char) (h : '=' ∉ w) :
    w.findIdx? (fun c => c == '=') = none := by
  rw [List.findIdx?_eq_none_iff]
  intro x hx
  simp only [beq_eq_false_iff_ne, ne_eq]
  intro he
  exact h (he ▸ hx)

/-- Claim C3: classification of a word beginning with `--` on a usage
line: with no `=` the arity is None and the name is everything after
`--`; with `=` preceded immediately by `[` and the word ending in `]`,
the arity is Optional and the name is the substring between `--` and
`[` (the characters at indices `2 .. pos-2`, i.e. `rest.take (pos-1-2)`
where `pos` is the index of the first `=`); with `=` otherwise the
arity is Required and the name is the substring between `--` and `=`
(`rest.take (pos-2)`); and a `[=` pattern whose word does not end with
`]` fails the classifier and makes the whole line invalid. -/
theorem claim_C3 (w rest : List Char) (hw : w = '-' :: '-' :: rest) :
    (('=' ∉ w) → classifyLongWord w = some (rest, Arity.no_argument)) ∧
    (∀ pos : Nat, w.findIdx? (fun c => c == '=') = some pos →
      w[pos - 1]? = some '[' → w.getLast? = some ']' →
      classifyLongWord w = some (rest.take (pos - 1 - 2), Arity.optional_argument)) ∧
    (∀ pos : Nat, w.findIdx? (fun c => c == '=') = some pos →
      ¬ (w[pos - 1]? = some '[') →
      classifyLongWord w = some (rest.take (pos - 2), Arity.required_argument)) ∧
    (∀ (pos : Nat) (line : List Char), w.findIdx? (fun c => c == '=') = some pos →
      w[pos - 1]? = some '[' → ¬ (w.getLast? = some ']') →
      wordsOf line = [w] →
      classifyLongWord w = none ∧ parseOptLineClass line = LineClass.invalid) := by
  refine ⟨?_, ?_, ?_, ?_⟩
  · intro h
    rw [classifyLongWord, findIdxEq_eq_none w h, hw]
    rfl
  · intro pos h1 h2 h3
    rw [classifyLongWord, h1]
    dsimp only
    rw [if_pos h2, if_neg (by simp [h3]), hw]
    rfl
  · intro pos h1 h2
    rw [classifyLongWord, h1]
    dsimp only
    rw [if_neg h2, hw]
    rfl
  · intro pos line h1 h2 h3 hwords
    subst hw
    have hcl : classifyLongWord ('-' :: '-' :: rest) = none := by
      rw [classifyLongWord, h1]
      dsimp only
      rw [if_pos h2, if_pos (by simpa using h3)]
    refine ⟨hcl, ?_⟩
    have hstep : scanLoop ['-' :: '-' :: rest] nullChar [] Arity.no_argument 0 =
        ScanOut.invalid := by
      simp only [scanLoop, List.length_cons, List.head?_cons, hcl]
      norm_num
    rw [parseOptLineClass, hwords, hstep]

/-- Claim C9: an alias absent from the index makes `operator[]` throw
`std::invalid_argument` with message `"unknown option: <opt>"`; a
registered alias whose option never occurred in the parsed `argv`
(no entry in `m_options`) yields the null `StringValue`, which has count
`0`, converts to `false`, and whose `as<T>` throws
`std::invalid_argument("null value")`. -/
theorem claim_C9 (st : CmdOption) (missing opt : List Char) (i : Nat)
    (hmiss : lookupMap st.m_indexMap missing = none)
    (hreg : lookupMap st.m_indexMap opt = some i)
    (hnone : lookupOpt st.m_options i = none)
    (hnull : st.m_nullStrValue = StringValue.empty) :
    st.access missing = Except.error ("unknown option: ".toList ++ missing) ∧
    st.access opt = Except.ok StringValue.empty ∧
    StringValue.empty.m_count = 0 ∧
    StringValue.empty.toBool = false ∧
    StringValue.empty.asString = Except.error ("null value".toList) := by
  refine ⟨?_, ?_, rfl, rfl, rfl⟩
  · rw [CmdOption.access, hmiss]
  · rw [CmdOption.access, hreg]
    dsimp only
    rw [hnone, hnull]

/-- Witness for C9 at the table built from `"-a, --all\n-b"` parsed over
an empty command line. -/
theorem claim_C9_witness :
    (((buildTable ("-a, --all\n-b".toList)).parse ["prog".toList] 1).1.access
        ("z".toList) = Except.error ("unknown option: z".toList)) ∧
    (((buildTable ("-a, --all\n-b".toList)).parse ["prog".toList] 1).1.access
        ("all".toList) = Except.ok StringValue.empty) ∧
    StringValue.empty.m_count = 0 ∧
    StringValue.empty.toBool = false ∧
    StringValue.empty.asString = Except.error ("null value".toList) :=
  claim_C9 (((buildTable ("-a, --all\n-b".toList)).parse ["prog".toList] 1).1)
    ("z".toList) ("all".toList) 0 (by decide) (by decide) (by decide) (by decide)

/-- Witness for C3 at the spec's own examples. -/
theorem claim_C3_witness :
    classifyLongWord ("--epsilon[=NUM]".toList) =
      some ("epsilon".toList, Arity.optional_argument) ∧
    classifyLongWord ("--epsilon[=NUM".toList) = none ∧
    parseOptLineClass ("--epsilon[=NUM".toList) = LineClass.invalid ∧
    classifyLongWord ("--delta=NUM".toList) =
      some ("delta".toList, Arity.required_argument) ∧
    classifyLongWord ("--all".toList) = some ("all".toList, Arity.no_argument) := by
  have h1 := claim_C3 ("--epsilon[=NUM]".toList) ("epsilon[=NUM]".toList) (by decide)
  have h2 := claim_C3 ("--epsilon[=NUM".toList) ("epsilon[=NUM".toList) (by decide)
  have h3 := claim_C3 ("--delta=NUM".toList) ("delta=NUM".toList) (by decide)
  have h4 := claim_C3 ("--all".toList) ("all".toList) (by decide)
  refine ⟨?_, ?_, ?_, ?_, ?_⟩
  · exact (h1.2.1 10 (by decide) (by decide) (by decide)).trans (by decide)
  · exact (h2.2.2.2 10 ("--epsilon[=NUM".toList) (by decide) (by decide) (by decide)
      (by decide)).1
  · exact (h2.2.2.2 10 ("--epsilon[=NUM".toList) (by decide) (by decide) (by decide)
      (by decide)).2
  · exact (h3.2.2.1 7 (by decide) (by decide)).trans (by decide)
  · exact (h4.1 (by decide)).trans (by decide)

/-- Witness for C4: `-f FILE` gives Required, `-f` followed by several
prose words gives None. -/
theorem claim_C4_witness :
    Arity.required_argument =
      (if (wordsOf ("-f FILE".toList)).length = 2 then Arity.required_argument
       else Arity.no_argument) ∧
    Arity.no_argument =
      (if (wordsOf ("-f this is explanation".toList)).length = 2 then Arity.required_argument
       else Arity.no_argument) :=
  ⟨claim_C4 ("-f FILE".toList) 'f' Arity.required_argument (by decide),
   claim_C4 ("-f this is explanation".toList) 'f' Arity.no_argument (by decide)⟩
lemma lookupMap_append_some (m m2 : List (List Char × Nat)) (k : List Char) (v : Nat)
    (h : lookupMap m k = some v) : lookupMap (m ++ m2) k = some v := by
  induction m with
  | nil => cases h
  | cons p rest ih =>
    obtain ⟨a, b⟩ := p
    rw [List.cons_append, lookupMap]
    rw [lookupMap] at h
    split at h
    · rename_i hak
      rw [if_pos hak]
      exact h
    · rename_i hak
      rw [if_neg hak]
      exact ih h

lemma lookupMap_append_none (m m2 : List (List Char × Nat)) (k : List Char)
    (h : lookupMap m k = none) : lookupMap (m ++ m2) k = lookupMap m2 k := by
  induction m with
  | nil => rfl
  | cons p rest ih =>
    obtain ⟨a, b⟩ := p
    rw [lookupMap] at h
    split at h
    · cases h
    · rename_i hak
      rw [List.cons_append, lookupMap, if_neg hak]
      exact ih h

lemma nodup_keys_append (m : List (List Char × Nat)) (k : List Char) (v : Nat)
    (h : lookupMap m k = none) (hn : (m.map Prod.fst).Nodup) :
    ((m ++ [(k, v)]).map Prod.fst).Nodup := by
  induction m with
  | nil => simp
  | cons p rest ih =>
    obtain ⟨a, b⟩ := p
    rw [lookupMap] at h
    split at h
    · cases h
    · rename_i hak
      simp only [List.map_cons, List.nodup_cons] at hn
      obtain ⟨hmem, hnd⟩ := hn
      simp only [List.cons_append, List.map_cons, List.nodup_cons]
      refine ⟨?_, ih h hnd⟩
      simp only [List.map_append, List.mem_append, List.map_cons, List.map_nil,
        List.mem_singleton, List.mem_cons, List.not_mem_nil, or_false]
      rintro (hc | hc)
      · exact hmem hc
      · exact hak hc

lemma nodup_keys_registerShort (st : CmdOption) (so : Char) (ar : Arity)
    (hn : (st.m_indexMap.map Prod.fst).Nodup) :
    ((registerShort st so ar).1.m_indexMap.map Prod.fst).Nodup := by
  simp only [registerShort]
  split
  · split
    · exact hn
    · rename_i hl
      exact nodup_keys_append _ _ _ hl hn
  · exact hn

lemma nodup_keys_registerLong (st : CmdOption) (so : Char) (lo : List Char) (ar : Arity)
    (hn : (st.m_indexMap.map Prod.fst).Nodup) :
    ((registerLong st so lo ar).1.m_indexMap.map Prod.fst).Nodup := by
  simp only [registerLong]
  split
  · split
    · exact hn
    · rename_i hl
      exact nodup_keys_append _ _ _ hl hn
  · exact hn

lemma nodup_keys_registerOpt (st : CmdOption) (so : Char) (lo : List Char) (ar : Arity)
    (hn : (st.m_indexMap.map Prod.fst).Nodup) :
    ((registerOpt st so lo ar).m_indexMap.map Prod.fst).Nodup := by
  have h2 := nodup_keys_registerLong (registerShort st so ar).1 so lo ar
    (nodup_keys_registerShort st so ar hn)
  simp only [registerOpt]
  split
  · exact h2
  · exact h2

lemma nodup_keys_parseLine (st : CmdOption) (i : Nat) (l : List Char)
    (hn : (st.m_indexMap.map Prod.fst).Nodup) :
    ((parseLine st i l).m_indexMap.map Prod.fst).Nodup := by
  rw [parseLine, parseOptLine]
  cases hcl : parseOptLineClass l with
  | ignore => exact hn
  | invalid => exact hn
  | opt so lo ar => exact nodup_keys_registerOpt st so lo ar hn

lemma nodup_keys_initLoop (ls : List (List Char)) :
    ∀ (st : CmdOption) (i : Nat), (st.m_indexMap.map Prod.fst).Nodup →
      ((initLoop st i ls).m_indexMap.map Prod.fst).Nodup := by
  induction ls with
  | nil => intro st i hn; exact hn
  | cons l ls ih =>
    intro st i hn
    rw [initLoop]
    split
    · exact ih _ _ (nodup_keys_parseLine st i l hn)
    · exact hn

lemma nodup_keys_buildTable (usage : List Char) :
    ((buildTable usage).m_indexMap.map Prod.fst).Nodup := by
  rw [buildTable, CmdOption.init]
  exact nodup_keys_initLoop _ _ 0 (by simp [emptyCmdOption])

/-- Claim C5: after table building every registered alias maps to
exactly one OptionIdentity (the alias index has pairwise distinct keys,
so lookup is single-valued), and a valid usage line of the form
`-x, --name` with no `=` classifies with arity None and registers both
the short alias `x` and the long alias `name` at the same identity
`m_maxIndex`. -/
theorem claim_C5 (usage : List Char) (st : CmdOption) (x : Char)
    (nameArg w1 w2 line : List Char)
    (hx : x ≠ '-') (hx0 : x ≠ nullChar)
    (hw1 : w1 = ['-', x, ','])
    (hw2 : w2 = '-' :: '-' :: nameArg)
    (hne : nameArg ≠ [])
    (hneq : '=' ∉ w2)
    (hwords : wordsOf line = [w1, w2])
    (hxfree : lookupMap st.m_indexMap [x] = none)
    (hnfree : lookupMap st.m_indexMap nameArg = none)
    (hxn : nameArg ≠ [x]) :
    ((buildTable usage).m_indexMap.map Prod.fst).Nodup ∧
    parseOptLineClass line = LineClass.opt x nameArg Arity.no_argument ∧
    parseOptLine st line = (true, registerOpt st x nameArg Arity.no_argument) ∧
    lookupMap (registerOpt st x nameArg Arity.no_argument).m_indexMap [x] =
      some st.m_maxIndex ∧
    lookupMap (registerOpt st x nameArg Arity.no_argument).m_indexMap nameArg =
      some st.m_maxIndex ∧
    (registerOpt st x nameArg Arity.no_argument).m_shortOptStr =
      st.m_shortOptStr ++ [x] ∧
    (registerOpt st x nameArg Arity.no_argument).m_longOptions =
      st.m_longOptions ++ [LongOpt.mk none Arity.no_argument x] := by
  subst hw1 hw2
  have hcl : classifyLongWord ('-' :: '-' :: nameArg) =
      some (nameArg, Arity.no_argument) := by
    rw [classifyLongWord, findIdxEq_eq_none _ hneq]
    rfl
  have hclass : parseOptLineClass line = LineClass.opt x nameArg Arity.no_argument := by
    rw [parseOptLineClass, hwords]
    simp only [scanLoop, hcl]
    simp [hx, hne, hx0]
  have hmap2 : lookupMap (st.m_indexMap ++ [([x], st.m_maxIndex)]) nameArg = none := by
    rw [lookupMap_append_none _ _ _ hnfree]
    simp only [lookupMap]
    rw [if_neg (fun hh => hxn hh.symm)]
  have hreg : registerOpt st x nameArg Arity.no_argument =
      { st with
        m_shortOptStr := st.m_shortOptStr ++ [x],
        m_longOptNames := st.m_longOptNames ++ [nameArg],
        m_longOptions := st.m_longOptions ++ [LongOpt.mk none Arity.no_argument x],
        m_indexMap := st.m_indexMap ++ [([x], st.m_maxIndex)] ++ [(nameArg, st.m_maxIndex)],
        m_maxIndex := st.m_maxIndex + 1 } := by
    simp only [registerOpt, registerShort, registerLong, hxfree, hmap2]
    simp [hx0, hne, hmap2, List.append_assoc]
  have h4 : lookupMap (st.m_indexMap ++ [([x], st.m_maxIndex)]) [x] = some st.m_maxIndex := by
    rw [lookupMap_append_none _ _ _ hxfree]
    simp [lookupMap]
  refine ⟨nodup_keys_buildTable usage, hclass, ?_, ?_, ?_, ?_, ?_⟩
  · rw [parseOptLine, hclass]
  · rw [hreg]
    exact lookupMap_append_some _ _ _ _ h4
  · rw [hreg]
    rw [lookupMap_append_none _ _ _ hmap2]
    simp [lookupMap]
  · rw [hreg]
  · rw [hreg]

lemma addErrorStr_ne_nil (st : CmdOption) (c : Char) (s : List Char) :
    (st.addErrorStr (c :: s)).m_errorStr ≠ [] := by
  rw [CmdOption.addErrorStr]
  dsimp only
  split
  · simp
  · simp

lemma initLoop_not_good (ls : List (List Char)) (st : CmdOption) (i : Nat)
    (h : ¬ st.good = true) : initLoop st i ls = st := by
  cases ls with
  | nil => rfl
  | cons l ls =>
    rw [initLoop, if_neg h]

/-- Claim C1 (amended): when a usage line fails the Usage-Line Parser,
the diagnostic `"invalid option at line: N"` is accumulated and the
parse becomes not good, but table building does **not** continue to
subsequent lines: the build loop re-checks `good()` before every line,
so every line after the first diagnostic is skipped. -/
theorem claim_C1_amended (st : CmdOption) (i : Nat) (l : List Char) (ls : List (List Char))
    (hg : st.good = true) (hbad : parseOptLineClass l = LineClass.invalid) :
    parseLine st i l =
      st.addErrorStr ("invalid option at line: ".toList ++ Nat.toDigits 10 i ++ '\n' :: l) ∧
    (parseLine st i l).good = false ∧
    initLoop st i (l :: ls) = parseLine st i l := by
  have h1 : parseLine st i l =
      st.addErrorStr ("invalid option at line: ".toList ++ Nat.toDigits 10 i ++ '\n' :: l) := by
    rw [parseLine, parseOptLine, hbad]
  have h2 : (parseLine st i l).good = false := by
    rw [h1]
    have h3 := addErrorStr_ne_nil st 'i'
      ("nvalid option at line: ".toList ++ Nat.toDigits 10 i ++ '\n' :: l)
    simp only [CmdOption.good, decide_eq_false_iff_not]
    exact h3
  refine ⟨h1, h2, ?_⟩
  rw [initLoop, if_pos hg]
  exact initLoop_not_good ls _ (i + 1) (by rw [h2]; simp)

/-- Counterexample to claim C1 as stated: with usage text `"-\n-a"`,
line 0 is invalid and line 1 (`-a`) is never examined — the alias `a`
ends up unregistered, although the same line registers `a` when it is
the only line.  So not every line is examined once a diagnostic has
been recorded. -/
theorem claim_C1_counterexample :
    lookupMap (buildTable ("-a".toList)).m_indexMap ['a'] = some 0 ∧
    lookupMap (buildTable ("-\n-a".toList)).m_indexMap ['a'] = none ∧
    (buildTable ("-\n-a".toList)).m_errorStr = ("invalid option at line: 0\n-".toList) ∧
    (buildTable ("-\n-a".toList)).good = false := by
  refine ⟨by decide, by decide, by decide, by decide⟩

/-- Claim C6: registering an alias a second time (short or long, the
namespaces share the one `m_indexMap`) accumulates a duplicate-option
diagnostic, makes the parse not good, leaves the alias mapped to the
OptionIdentity of its first registration, and a line none of whose
aliases is newly registered leaves `m_maxIndex` unchanged (consumes no
new identity); a line that also carries one new alias still keeps the
duplicate alias at its old identity. -/
theorem claim_C6 (st : CmdOption) (a : Char) (j : Nat) (lo : List Char) (k : Nat) (ar : Arity)
    (ha : a ≠ nullChar)
    (hdup : lookupMap st.m_indexMap [a] = some j) :
    ((registerOpt st a [] ar).m_errorStr =
        (st.addErrorStr ("duplicate short option: ".toList ++ [a])).m_errorStr ∧
      (registerOpt st a [] ar).good = false ∧
      lookupMap (registerOpt st a [] ar).m_indexMap [a] = some j ∧
      (registerOpt st a [] ar).m_maxIndex = st.m_maxIndex) ∧
    (lo ≠ [] → lookupMap st.m_indexMap lo = none →
      lookupMap (registerOpt st a lo ar).m_indexMap [a] = some j ∧
      lookupMap (registerOpt st a lo ar).m_indexMap lo = some st.m_maxIndex ∧
      (registerOpt st a lo ar).good = false) ∧
    (lo ≠ [] → lookupMap st.m_indexMap lo = some k →
      (registerOpt st nullChar lo ar).m_errorStr =
        (st.addErrorStr ("duplicate long option: ".toList ++ lo)).m_errorStr ∧
      (registerOpt st nullChar lo ar).good = false ∧
      lookupMap (registerOpt st nullChar lo ar).m_indexMap lo = some k ∧
      (registerOpt st nullChar lo ar).m_maxIndex = st.m_maxIndex) := by
  refine ⟨?_, ?_, ?_⟩
  · have hreg : registerOpt st a [] ar =
        { st with
          m_shortOptStr := st.m_shortOptStr ++ a ::
            (if ar = Arity.required_argument ∨ ar = Arity.optional_argument
             then [':'] else []),
          m_errorStr :=
            (st.addErrorStr ("duplicate short option: ".toList ++ [a])).m_errorStr } := by
      simp only [registerOpt, registerShort, registerLong, hdup]
      simp [ha, CmdOption.addErrorStr]
    refine ⟨by rw [hreg], ?_, by rw [hreg]; exact hdup, by rw [hreg]⟩
    rw [CmdOption.good, hreg]
    simp only [decide_eq_false_iff_not]
    exact addErrorStr_ne_nil st 'd' _
  · intro hlo hlofresh
    have hreg : registerOpt st a lo ar =
        { st with
          m_shortOptStr := st.m_shortOptStr ++ a ::
            (if ar = Arity.required_argument ∨ ar = Arity.optional_argument
             then [':'] else []),
          m_errorStr :=
            (st.addErrorStr ("duplicate short option: ".toList ++ [a])).m_errorStr,
          m_longOptNames := st.m_longOptNames ++ [lo],
          m_longOptions := st.m_longOptions ++ [LongOpt.mk none ar a],
          m_indexMap := st.m_indexMap ++ [(lo, st.m_maxIndex)],
          m_maxIndex := st.m_maxIndex + 1 } := by
      simp only [registerOpt, registerShort, registerLong, hdup, hlofresh]
      simp [ha, hlo, CmdOption.addErrorStr, hlofresh]
    refine ⟨?_, ?_, ?_⟩
    · rw [hreg]
      exact lookupMap_append_some _ _ _ _ hdup
    · rw [hreg]
      dsimp only
      rw [lookupMap_append_none _ _ _ hlofresh]
      simp [lookupMap]
    · rw [CmdOption.good, hreg]
      simp only [decide_eq_false_iff_not]
      exact addErrorStr_ne_nil st 'd' _
  · intro hlo hldup
    have hreg : registerOpt st nullChar lo ar =
        { st with
          m_longOptNames := st.m_longOptNames ++ [lo],
          m_longOptions := st.m_longOptions ++ [LongOpt.mk none ar nullChar],
          m_errorStr :=
            (st.addErrorStr ("duplicate long option: ".toList ++ lo)).m_errorStr } := by
      simp only [registerOpt, registerShort, registerLong, hldup]
      simp [hlo, CmdOption.addErrorStr, hldup]
    refine ⟨by rw [hreg], ?_, by rw [hreg]; exact hldup, by rw [hreg]⟩
    rw [CmdOption.good, hreg]
    simp only [decide_eq_false_iff_not]
    exact addErrorStr_ne_nil st 'd' _

/-- Claim C10: a usage line whose first two words are both long-option
tokens registers only the second long option name and arity; the first
long option is silently discarded (no diagnostic, not registered) and
the line is still valid. -/
theorem claim_C10 (st : CmdOption) (w1 w2 line r1 r2 n1v n2v : List Char) (ar1 ar2 : Arity)
    (hw1 : w1 = '-' :: '-' :: r1) (hw2 : w2 = '-' :: '-' :: r2)
    (hc1 : classifyLongWord w1 = some (n1v, ar1))
    (hc2 : classifyLongWord w2 = some (n2v, ar2))
    (hn2 : n2v ≠ [])
    (hwords : wordsOf line = [w1, w2])
    (hfresh : lookupMap st.m_indexMap n2v = none)
    (hn1fresh : lookupMap st.m_indexMap n1v = none)
    (hne : n1v ≠ n2v) :
    parseOptLineClass line = LineClass.opt nullChar n2v ar2 ∧
    parseOptLine st line =
      (true, { st with
        m_longOptNames := st.m_longOptNames ++ [n2v],
        m_longOptions := st.m_longOptions ++ [LongOpt.mk none ar2 nullChar],
        m_indexMap := st.m_indexMap ++ [(n2v, st.m_maxIndex)],
        m_maxIndex := st.m_maxIndex + 1 }) ∧
    (parseOptLine st line).2.m_errorStr = st.m_errorStr ∧
    lookupMap (parseOptLine st line).2.m_indexMap n1v = none := by
  subst hw1 hw2
  have hclass : parseOptLineClass line = LineClass.opt nullChar n2v ar2 := by
    rw [parseOptLineClass, hwords]
    simp only [scanLoop, hc1, hc2]
    simp [hn2]
  have hreg : parseOptLine st line =
      (true, { st with
        m_longOptNames := st.m_longOptNames ++ [n2v],
        m_longOptions := st.m_longOptions ++ [LongOpt.mk none ar2 nullChar],
        m_indexMap := st.m_indexMap ++ [(n2v, st.m_maxIndex)],
        m_maxIndex := st.m_maxIndex + 1 }) := by
    rw [parseOptLine, hclass]
    simp only [registerOpt, registerShort, registerLong, hfresh]
    simp [hn2, nullChar, hfresh]
  refine ⟨hclass, hreg, by rw [hreg], ?_⟩
  rw [hreg]
  dsimp only
  rw [lookupMap_append_none _ _ _ hn1fresh]
  simp only [lookupMap]
  rw [if_neg (fun hh => hne hh.symm)]
/-- Witness for C5 at the line `-a, --all` over a fresh table. -/
theorem claim_C5_witness :
    ((buildTable ("-a, --all".toList)).m_indexMap.map Prod.fst).Nodup ∧
    parseOptLineClass ("-a, --all".toList) =
      LineClass.opt 'a' ("all".toList) Arity.no_argument ∧
    lookupMap (registerOpt emptyCmdOption 'a' ("all".toList)
      Arity.no_argument).m_indexMap ['a'] = some 0 ∧
    lookupMap (registerOpt emptyCmdOption 'a' ("all".toList)
      Arity.no_argument).m_indexMap ("all".toList) = some 0 ∧
    (registerOpt emptyCmdOption 'a' ("all".toList) Arity.no_argument).m_shortOptStr =
      (':' :: ['a']) := by
  have h := claim_C5 ("-a, --all".toList) emptyCmdOption 'a' ("all".toList)
    ("-a,".toList) ("--all".toList) ("-a, --all".toList)
    (by decide) (by decide) (by decide) (by decide) (by decide) (by decide) (by decide)
    (by decide) (by decide) (by decide)
  exact ⟨h.1, h.2.1, h.2.2.2.1, h.2.2.2.2.1, h.2.2.2.2.2.1⟩

/-- Witness for C6: re-registering `-a` (as `-a, --other`), and the
long name `a` colliding with the existing short `a` across the shared
namespace. -/
theorem claim_C6_witness :
    ((registerOpt (buildTable ("-a".toList)) 'a' [] Arity.no_argument).good = false ∧
     lookupMap (registerOpt (buildTable ("-a".toList)) 'a' []
       Arity.no_argument).m_indexMap ['a'] = some 0 ∧
     (registerOpt (buildTable ("-a".toList)) 'a' [] Arity.no_argument).m_maxIndex = 1) ∧
    (lookupMap (registerOpt (buildTable ("-a".toList)) 'a' ("other".toList)
       Arity.no_argument).m_indexMap ['a'] = some 0 ∧
     lookupMap (registerOpt (buildTable ("-a".toList)) 'a' ("other".toList)
       Arity.no_argument).m_indexMap ("other".toList) = some 1 ∧
     (registerOpt (buildTable ("-a".toList)) 'a' ("other".toList)
       Arity.no_argument).good = false) ∧
    ((registerOpt (buildTable ("-a".toList)) nullChar ['a'] Arity.no_argument).good = false ∧
     lookupMap (registerOpt (buildTable ("-a".toList)) nullChar ['a']
       Arity.no_argument).m_indexMap ['a'] = some 0 ∧
     (registerOpt (buildTable ("-a".toList)) nullChar ['a']
       Arity.no_argument).m_maxIndex = 1) := by
  have h1 := claim_C6 (buildTable ("-a".toList)) 'a' 0 ("other".toList) 0
    Arity.no_argument (by decide) (by decide)
  have h2 := claim_C6 (buildTable ("-a".toList)) 'a' 0 ['a'] 0
    Arity.no_argument (by decide) (by decide)
  have hb := h1.2.1 (by decide) (by decide)
  have hc := h2.2.2 (by decide) (by decide)
  exact ⟨⟨h1.1.2.1, h1.1.2.2.1, h1.1.2.2.2⟩, ⟨hb.1, hb.2.1, hb.2.2⟩,
    ⟨hc.2.1, hc.2.2.1, hc.2.2.2⟩⟩

/-- Witness for C10 at the line `--alpha --beta`. -/
theorem claim_C10_witness :
    parseOptLineClass ("--alpha --beta".toList) =
      LineClass.opt nullChar ("beta".toList) Arity.no_argument ∧
    (parseOptLine emptyCmdOption ("--alpha --beta".toList)).2.m_errorStr = [] ∧
    lookupMap (parseOptLine emptyCmdOption
      ("--alpha --beta".toList)).2.m_indexMap ("alpha".toList) = none ∧
    lookupMap (parseOptLine emptyCmdOption
      ("--alpha --beta".toList)).2.m_indexMap ("beta".toList) = some 0 := by
  have h := claim_C10 emptyCmdOption ("--alpha".toList) ("--beta".toList)
    ("--alpha --beta".toList) ("alpha".toList) ("beta".toList)
    ("alpha".toList) ("beta".toList) Arity.no_argument Arity.no_argument
    (by decide) (by decide) (by decide) (by decide) (by decide) (by decide)
    (by decide) (by decide) (by decide)
  refine ⟨h.1, by rw [h.2.1]; decide, h.2.2.2, by rw [h.2.1]; decide⟩

/-- Witness for C1 (amended) at usage line `-` followed by `-a`. -/
theorem claim_C1_amended_witness :
    parseLine emptyCmdOption 0 ("-".toList) =
      emptyCmdOption.addErrorStr ("invalid option at line: ".toList ++
        Nat.toDigits 10 0 ++ '\n' :: ("-".toList)) ∧
    (parseLine emptyCmdOption 0 ("-".toList)).good = false ∧
    initLoop emptyCmdOption 0 [("-".toList), ("-a".toList)] =
      parseLine emptyCmdOption 0 ("-".toList) := by
  have h := claim_C1_amended emptyCmdOption 0 ("-".toList) [("-a".toList)]
    (by decide) (by decide)
  exact ⟨h.1, h.2.1, h.2.2⟩
lemma isNonOptTok_done (argv : List (List Char)) (optstr : List Char)
    (lopts : List LongOpt) (k : Nat) (p : List Char)
    (hk : k ≠ 0) (hget : argv[k]? = some p) (hp : isNonOptTok p = true) :
    getoptStep argv optstr lopts k = (GetoptResult.done, k) := by
  cases p with
  | nil => simp [getoptStep, hk, hget]
  | cons c rest =>
    cases rest with
    | nil => simp [getoptStep, hk, hget]
    | cons c2 r =>
      have hc : ¬ (c = '-') := by
        simp only [isNonOptTok, bne_iff_ne, ne_eq] at hp
        exact hp
      simp [getoptStep, hk, hget, hc]

lemma getoptStep_none (argv : List (List Char)) (optstr : List Char)
    (lopts : List LongOpt) (k : Nat)
    (hk : k ≠ 0) (hget : argv[k]? = none) :
    getoptStep argv optstr lopts k = (GetoptResult.done, k) := by
  simp [getoptStep, hk, hget]

lemma parse_short_pos (st : CmdOption) (a : Char) (i : Nat) (p prog : List Char) (ind : Nat)
    (ha : shortLookup st.m_shortOptStr a = some false)
    (had : a ≠ '-')
    (hia : lookupMap st.m_indexMap [a] = some i)
    (hp : isNonOptTok p = true)
    (hind : ind = 0 ∨ ind = 1) :
    st.parse [prog, ['-', a], p] ind =
      ({ st with m_options := optionsAdd st.m_options i [],
                 m_arguments := st.m_arguments.add p }, 0) := by
  have hind1 : (if ind = 0 then 1 else ind) = 1 := by
    rcases hind with h | h <;> simp [h]
  have hstep1 : getoptStep [prog, ['-', a], p] st.m_shortOptStr st.m_longOptions ind =
      (GetoptResult.shortOption a none, 2) := by
    simp [getoptStep, hind1, ha, had]
  have hstep2 : getoptStep [prog, ['-', a], p]
      ({ st with m_options := optionsAdd st.m_options i [] } : CmdOption).m_shortOptStr
      ({ st with m_options := optionsAdd st.m_options i [] } : CmdOption).m_longOptions 2 =
      (GetoptResult.done, 2) := by
    exact isNonOptTok_done _ _ _ 2 p (by omega) (by simp) hp
  have e1 : parseLoop [prog, ['-', a], p] (4 + 1) st ind =
      parseLoop [prog, ['-', a], p] 4
        ({ st with m_options := optionsAdd st.m_options i [] }) 2 := by
    rw [parseLoop, hstep1]
    dsimp only
    rw [hia]
    simp
  have e2 : parseLoop [prog, ['-', a], p] (3 + 1)
      ({ st with m_options := optionsAdd st.m_options i [] }) 2 =
      ({ st with m_options := optionsAdd st.m_options i [] }, 2) := by
    rw [parseLoop, hstep2]
  have hloop : parseLoop [prog, ['-', a], p] ([prog, ['-', a], p].length + 2) st ind =
      ({ st with m_options := optionsAdd st.m_options i [] }, 2) := by
    rw [show ([prog, ['-', a], p].length + 2) = 4 + 1 from by simp]
    rw [e1]
    exact e2
  rw [CmdOption.parse, hloop]
  simp

lemma lookupOpt_optionsAdd_self (m : List (Nat × StringValue)) (i : Nat) (s : List Char) :
    lookupOpt (optionsAdd m i s) i =
      some (((lookupOpt m i).getD StringValue.empty).add s) := by
  induction m with
  | nil => simp [optionsAdd, lookupOpt]
  | cons pr rest ih =>
    obtain ⟨k, v⟩ := pr
    by_cases hk : k = i
    · subst hk
      simp [optionsAdd, lookupOpt]
    · simp [optionsAdd, lookupOpt, hk, ih]

lemma parseLoop_unknown_step (argv : List (List Char)) (fuel : Nat) (st : CmdOption)
    (optind : Nat) (c : Char) (ind1 : Nat)
    (h : getoptStep argv st.m_shortOptStr st.m_longOptions optind =
      (GetoptResult.unknown c, ind1)) :
    parseLoop argv (fuel + 1) st optind =
      parseLoop argv fuel (st.addErrorStr ("Unknown option: ".toList ++ [c])) ind1 := by
  rw [parseLoop, h]

lemma parseLoop_short_step (argv : List (List Char)) (fuel : Nat) (st : CmdOption)
    (optind : Nat) (c : Char) (oarg : Option (List Char)) (ind1 : Nat) (i : Nat)
    (h : getoptStep argv st.m_shortOptStr st.m_longOptions optind =
      (GetoptResult.shortOption c oarg, ind1))
    (hm : lookupMap st.m_indexMap [c] = some i) :
    parseLoop argv (fuel + 1) st optind =
      parseLoop argv fuel
        { st with m_options := optionsAdd st.m_options i (oarg.getD []) } ind1 := by
  rw [parseLoop, h]
  dsimp only
  rw [hm]

lemma parseLoop_done (argv : List (List Char)) (fuel : Nat) (st : CmdOption)
    (optind : Nat) (ind1 : Nat)
    (h : getoptStep argv st.m_shortOptStr st.m_longOptions optind =
      (GetoptResult.done, ind1)) :
    parseLoop argv (fuel + 1) st optind = (st, ind1) := by
  rw [parseLoop, h]

/-- Claim C7: dispatching over an argv list containing an option token
absent from the table appends the diagnostic `"Unknown option: <char>"`,
makes the parse not good, continues scanning past that token (the later
registered option `-a` is still recorded), and still collects all
trailing non-option tokens, in order, as positional arguments. -/
theorem claim_C7 (st : CmdOption) (z a : Char) (i : Nat) (prog : List Char)
    (ps : List (List Char))
    (hz : shortLookup st.m_shortOptStr z = none) (hzd : z ≠ '-')
    (ha : shortLookup st.m_shortOptStr a = some false) (had : a ≠ '-')
    (hia : lookupMap st.m_indexMap [a] = some i)
    (hps : isNonOptTok (ps.head?.getD []) = true) :
    ((st.parse (prog :: ['-', z] :: ['-', a] :: ps) 1).1.m_errorStr =
        (st.addErrorStr ("Unknown option: ".toList ++ [z])).m_errorStr) ∧
    ((st.parse (prog :: ['-', z] :: ['-', a] :: ps) 1).1.good = false) ∧
    (lookupOpt (st.parse (prog :: ['-', z] :: ['-', a] :: ps) 1).1.m_options i =
      some (((lookupOpt st.m_options i).getD StringValue.empty).add [])) ∧
    ((st.parse (prog :: ['-', z] :: ['-', a] :: ps) 1).1.m_arguments =
      ps.foldl StringValue.add st.m_arguments) := by
  have hstep1 : getoptStep (prog :: ['-', z] :: ['-', a] :: ps) st.m_shortOptStr
      st.m_longOptions 1 = (GetoptResult.unknown z, 2) := by
    simp [getoptStep, hz, hzd]
  have hstep2 : getoptStep (prog :: ['-', z] :: ['-', a] :: ps)
      (st.addErrorStr ("Unknown option: ".toList ++ [z])).m_shortOptStr
      (st.addErrorStr ("Unknown option: ".toList ++ [z])).m_longOptions 2 =
      (GetoptResult.shortOption a none, 3) := by
    simp [getoptStep, CmdOption.addErrorStr, ha, had]
  have hia2 : lookupMap
      (st.addErrorStr ("Unknown option: ".toList ++ [z])).m_indexMap [a] = some i := hia
  have hstep3 : getoptStep (prog :: ['-', z] :: ['-', a] :: ps)
      ({ st.addErrorStr ("Unknown option: ".toList ++ [z]) with
          m_options := optionsAdd
            (st.addErrorStr ("Unknown option: ".toList ++ [z])).m_options i
            ((none : Option (List Char)).getD []) } : CmdOption).m_shortOptStr
      ({ st.addErrorStr ("Unknown option: ".toList ++ [z]) with
          m_options := optionsAdd
            (st.addErrorStr ("Unknown option: ".toList ++ [z])).m_options i
            ((none : Option (List Char)).getD []) } : CmdOption).m_longOptions 3 =
      (GetoptResult.done, 3) := by
    cases ps with
    | nil => exact getoptStep_none _ _ _ 3 (by omega) (by simp)
    | cons p ps2 =>
      refine isNonOptTok_done _ _ _ 3 p (by omega) (by simp) ?_
      simpa using hps
  have hloop : parseLoop (prog :: ['-', z] :: ['-', a] :: ps)
      ((prog :: ['-', z] :: ['-', a] :: ps).length + 2) st 1 =
      ({ st.addErrorStr ("Unknown option: ".toList ++ [z]) with
          m_options := optionsAdd
            (st.addErrorStr ("Unknown option: ".toList ++ [z])).m_options i
            ((none : Option (List Char)).getD []) }, 3) := by
    have hf : (prog :: ['-', z] :: ['-', a] :: ps).length + 2 =
        (ps.length + 4) + 1 := by
      simp
    rw [hf]
    rw [parseLoop_unknown_step _ _ _ _ _ _ hstep1]
    rw [show ps.length + 4 = (ps.length + 3) + 1 from rfl]
    rw [parseLoop_short_step _ _ _ _ _ none _ i hstep2 hia2]
    rw [show ps.length + 3 = (ps.length + 2) + 1 from rfl]
    rw [parseLoop_done _ _ _ _ _ hstep3]
  have hparse : st.parse (prog :: ['-', z] :: ['-', a] :: ps) 1 =
      ({ st.addErrorStr ("Unknown option: ".toList ++ [z]) with
          m_options := optionsAdd st.m_options i [],
          m_arguments := ps.foldl StringValue.add st.m_arguments }, 0) := by
    rw [CmdOption.parse, hloop]
    simp [CmdOption.addErrorStr]
  rw [hparse]
  refine ⟨rfl, ?_, ?_, rfl⟩
  · simp only [CmdOption.good, decide_eq_false_iff_not]
    exact addErrorStr_ne_nil st 'U' _
  · exact lookupOpt_optionsAdd_self st.m_options i []

/-- Claim C2 (amended): the per-identity raw value collections
(`m_options`) and the positional-argument collection (`m_arguments`) are
**not** created fresh per dispatch call — they are member state that is
never cleared, so the second of two back-to-back `parse` calls appends
its occurrences and tokens to the collections left by the first call. -/
theorem claim_C2_amended (st : CmdOption) (a : Char) (i : Nat) (p q prog1 prog2 : List Char)
    (ha : shortLookup st.m_shortOptStr a = some false)
    (had : a ≠ '-')
    (hia : lookupMap st.m_indexMap [a] = some i)
    (hp : isNonOptTok p = true) (hq : isNonOptTok q = true) :
    ((st.parse [prog1, ['-', a], p] 1).1.parse [prog2, ['-', a], q]
        (st.parse [prog1, ['-', a], p] 1).2).1.m_arguments =
      (st.m_arguments.add p).add q ∧
    lookupOpt ((st.parse [prog1, ['-', a], p] 1).1.parse [prog2, ['-', a], q]
        (st.parse [prog1, ['-', a], p] 1).2).1.m_options i =
      some ((((lookupOpt st.m_options i).getD StringValue.empty).add []).add []) ∧
    ((st.parse [prog1, ['-', a], p] 1).1.parse [prog2, ['-', a], q]
        (st.parse [prog1, ['-', a], p] 1).2).1.m_errorStr = st.m_errorStr := by
  have h1 := parse_short_pos st a i p prog1 1 ha had hia hp (Or.inr rfl)
  have h2 := parse_short_pos
    ({ st with m_options := optionsAdd st.m_options i [],
               m_arguments := st.m_arguments.add p }) a i q prog2 0 ha had hia hq
    (Or.inl rfl)
  rw [h1]
  dsimp only
  rw [h2]
  dsimp only
  refine ⟨rfl, ?_, rfl⟩
  rw [lookupOpt_optionsAdd_self, lookupOpt_optionsAdd_self]
  simp

/-- Counterexample to claim C2 as stated: after parsing
`["prog","-a","x"]` and then `["prog","-a","y"]` on the table for `-a`,
the positional collection holds `"x\ny"` with count `2` (not just
`"y"`), and identity `0` holds two occurrences — tokens from the first
call remain in the second call's collections. -/
theorem claim_C2_counterexample :
    (((buildTable ("-a".toList)).parse ["prog".toList, "-a".toList, "x".toList] 1).1.parse
        ["prog".toList, "-a".toList, "y".toList]
        ((buildTable ("-a".toList)).parse
          ["prog".toList, "-a".toList, "x".toList] 1).2).1.m_arguments =
      StringValue.mk ("x\ny".toList) 2 ∧
    ¬ ((((buildTable ("-a".toList)).parse ["prog".toList, "-a".toList, "x".toList] 1).1.parse
        ["prog".toList, "-a".toList, "y".toList]
        ((buildTable ("-a".toList)).parse
          ["prog".toList, "-a".toList, "x".toList] 1).2).1.m_arguments =
      StringValue.mk ("y".toList) 1) ∧
    lookupOpt (((buildTable ("-a".toList)).parse
        ["prog".toList, "-a".toList, "x".toList] 1).1.parse
        ["prog".toList, "-a".toList, "y".toList]
        ((buildTable ("-a".toList)).parse
          ["prog".toList, "-a".toList, "x".toList] 1).2).1.m_options 0 =
      some (StringValue.mk ['\n'] 2) := by
  refine ⟨by decide, by decide, by decide⟩

/-- Claim C8: every `parse` call ends by resetting the shared scanner
cursor to `0` (the re-initialization value, `optind = 0;` being the last
statement), and a second, independent parse performed right after a
first one — fed the cursor value the first call left behind — behaves
exactly like a fresh parse: it records the second argv's occurrence and
appends exactly the second argv's trailing positional token. -/
theorem claim_C8 (stA : CmdOption) (argvA : List (List Char)) (indA : Nat)
    (stB : CmdOption) (argvB : List (List Char)) (indB : Nat)
    (a : Char) (i : Nat) (q progB : List Char)
    (ha : shortLookup (stB.parse argvB indB).1.m_shortOptStr a = some false)
    (had : a ≠ '-')
    (hia : lookupMap (stB.parse argvB indB).1.m_indexMap [a] = some i)
    (hq : isNonOptTok q = true) :
    (stA.parse argvA indA).2 = 0 ∧
    ((stB.parse argvB indB).1.parse [progB, ['-', a], q] (stB.parse argvB indB).2 =
      ({ (stB.parse argvB indB).1 with
           m_options := optionsAdd (stB.parse argvB indB).1.m_options i [],
           m_arguments := (stB.parse argvB indB).1.m_arguments.add q }, 0)) := by
  have hzero : ∀ (st : CmdOption) (argv : List (List Char)) (ind : Nat),
      (st.parse argv ind).2 = 0 := by
    intro st argv ind
    rfl
  exact ⟨hzero stA argvA indA,
    by
      rw [hzero stB argvB indB]
      exact parse_short_pos (stB.parse argvB indB).1 a i q progB 0 ha had hia hq
        (Or.inl rfl)⟩
/-- Witness for C7: table `-a`, argv `["prog","-z","-a","pos"]`. -/
theorem claim_C7_witness :
    (((buildTable ("-a".toList)).parse
        ("prog".toList :: ['-', 'z'] :: ['-', 'a'] :: ["pos".toList]) 1).1.m_errorStr =
      ("Unknown option: z".toList)) ∧
    (((buildTable ("-a".toList)).parse
        ("prog".toList :: ['-', 'z'] :: ['-', 'a'] :: ["pos".toList]) 1).1.good = false) ∧
    (lookupOpt ((buildTable ("-a".toList)).parse
        ("prog".toList :: ['-', 'z'] :: ['-', 'a'] :: ["pos".toList]) 1).1.m_options 0 =
      some (StringValue.mk [] 1)) ∧
    (((buildTable ("-a".toList)).parse
        ("prog".toList :: ['-', 'z'] :: ['-', 'a'] :: ["pos".toList]) 1).1.m_arguments =
      StringValue.mk ("pos".toList) 1) := by
  have h := claim_C7 (buildTable ("-a".toList)) 'z' 'a' 0 ("prog".toList)
    [("pos".toList)] (by decide) (by decide) (by decide) (by decide) (by decide) (by decide)
  refine ⟨h.1.trans (by decide), h.2.1, h.2.2.1.trans (by decide), h.2.2.2.trans (by decide)⟩

/-- Witness for C2 (amended): two back-to-back parses on the `-a` table. -/
theorem claim_C2_amended_witness :
    (((buildTable ("-a".toList)).parse ["prog".toList, ['-', 'a'], "x".toList] 1).1.parse
        ["prog".toList, ['-', 'a'], "y".toList]
        ((buildTable ("-a".toList)).parse
          ["prog".toList, ['-', 'a'], "x".toList] 1).2).1.m_arguments =
      (((buildTable ("-a".toList)).m_arguments.add ("x".toList)).add ("y".toList)) ∧
    lookupOpt (((buildTable ("-a".toList)).parse
        ["prog".toList, ['-', 'a'], "x".toList] 1).1.parse
        ["prog".toList, ['-', 'a'], "y".toList]
        ((buildTable ("-a".toList)).parse
          ["prog".toList, ['-', 'a'], "x".toList] 1).2).1.m_options 0 =
      some ((((lookupOpt (buildTable ("-a".toList)).m_options 0).getD
        StringValue.empty).add []).add []) := by
  have h := claim_C2_amended (buildTable ("-a".toList)) 'a' 0 ("x".toList) ("y".toList)
    ("prog".toList) ("prog".toList) (by decide) (by decide) (by decide) (by decide) (by decide)
  exact ⟨h.1, h.2.1⟩

/-- Witness for C8: a parse of `["prog","w"]` leaves cursor `0`, and the
follow-up parse of `["prog","-a","y"]` behaves like a fresh parse. -/
theorem claim_C8_witness :
    ((buildTable ("-a".toList)).parse ["prog".toList, "w".toList] 1).2 = 0 ∧
    (((buildTable ("-a".toList)).parse ["prog".toList, "w".toList] 1).1.parse
        ["prog".toList, ['-', 'a'], "y".toList]
        ((buildTable ("-a".toList)).parse ["prog".toList, "w".toList] 1).2 =
      ({ ((buildTable ("-a".toList)).parse ["prog".toList, "w".toList] 1).1 with
          m_options := optionsAdd
            ((buildTable ("-a".toList)).parse ["prog".toList, "w".toList] 1).1.m_options 0 [],
          m_arguments := ((buildTable ("-a".toList)).parse
            ["prog".toList, "w".toList] 1).1.m_arguments.add ("y".toList) }, 0)) := by
  have h := claim_C8 (buildTable ("-a".toList)) ["prog".toList, "w".toList] 1
    (buildTable ("-a".toList)) ["prog".toList, "w".toList] 1
    'a' 0 ("y".toList) ("prog".toList) (by decide) (by decide) (by decide) (by decide)
  exact h
